import Mathlib

/-!
Shallow embedding of the shared-expense backend in `src/backend`
(`main.py`, `models.py`, `schemas.py`).

The persistent store (SQLite via the ORM) is modelled as association
lists keyed by integer ids; `db.query(X).filter(X.id == i).first()`
becomes `dbFirst`.  Python dicts (`user_sums`, the returned ledgers)
are association lists in insertion order.  Monetary amounts are Python
floats in the source and are modelled as exact rationals.  An HTTP
error response is an `ApiError` (status code plus detail string); the
blanket `try ... except Exception` handlers that several endpoints wrap
around their body re-raise any exception `e` — including an
`HTTPException` raised by the body itself — as
`HTTPException(status_code=400, detail=str(e))`; this is modelled by
`tryWrap`, using the `str` form `"status_code: detail"` of a Starlette
`HTTPException`.
-/

namespace SplitBackend

abbrev UserId := Nat
abbrev InvoiceId := Nat
abbrev RoomId := Nat

/-- Monetary amount (a `float` in the source, idealised as ℚ). -/
abbrev Amount := ℚ

/-- The `Data` ORM model (`models.py`): one invoice. -/
structure Invoice where
  name : String
  description : Option String := none
  date : Option String := none
  total : Amount
  user_sums : List (UserId × Amount)
  creator_id : UserId
  status : Bool
deriving DecidableEq

/-- The `Room` ORM model (`models.py`): participants (many-to-many with
`users`) and a JSON list of invoice ids. -/
structure Room where
  name : String
  participants : List UserId
  invoices : List InvoiceId
deriving DecidableEq

/-- The database: rooms, invoices and users keyed by id
(the value kept for a user is its display name). -/
structure Store where
  rooms : List (RoomId × Room)
  invoices : List (InvoiceId × Invoice)
  users : List (UserId × String)
deriving DecidableEq

/-- An HTTP error (`HTTPException`): status code and detail. -/
structure ApiError where
  status_code : Nat
  detail : String
deriving DecidableEq

/-- Model of `db.query(X).filter(X.id == i).first()`: first row whose
key equals `i`. -/
def dbFirst {α : Type} (l : List (Nat × α)) (i : Nat) : Option α :=
  match l with
  | [] => none
  | (k, v) :: rest => if k = i then some v else dbFirst rest i

/-- The `str` form of a Starlette `HTTPException` is
`"status_code: detail"`; re-raising it as
`HTTPException(status_code=400, detail=str(e))` yields this error. -/
def wrapError (e : ApiError) : ApiError :=
  ⟨400, toString e.status_code ++ ": " ++ e.detail⟩

/-- Model of the blanket `try: ... except Exception as e:
raise HTTPException(status_code=400, detail=str(e))` pattern: an inner
`HTTPException` is itself an `Exception`, so it is caught and re-raised
with status 400. -/
def tryWrap {α : Type} (r : Except ApiError α) : Except ApiError α :=
  match r with
  | .ok a => .ok a
  | .error e => .error (wrapError e)

/-- Endpoint `GET /api/room/room_id` (`get_room`, main.py:149-159):
look the room up, 404 when absent.  No `try/except` wrapper here. -/
def get_room (db : Store) (room_id : RoomId) : Except ApiError Room :=
  match dbFirst db.rooms room_id with
  | none => .error ⟨404, "Room not found"⟩
  | some room => .ok room

/-- Endpoint `GET /api/invoice/invoice_id` (`get_invoice`,
main.py:259-267): the body raises `HTTPException(404)` for a missing
invoice, but the surrounding `except Exception` catches that very
exception and re-raises it with status 400. -/
def get_invoice (db : Store) (invoice_id : InvoiceId) : Except ApiError Invoice :=
  tryWrap (match dbFirst db.invoices invoice_id with
    | none => .error ⟨404, "Invoice not found"⟩
    | some inv => .ok inv)

/-- Endpoint `PUT /api/invoice/invoice_id/request-close`
(`request_close_invoice`, main.py:302-316): checks existence and that
the invoice is not already closed, then returns the invoice; it assigns
nothing and calls no `commit`, so the store component is returned
unchanged on every path. -/
def request_close_invoice (db : Store) (invoice_id : InvoiceId) :
    Except ApiError Invoice × Store :=
  (tryWrap (match dbFirst db.invoices invoice_id with
    | none => .error ⟨404, "Invoice not found"⟩
    | some inv =>
        if inv.status then .error ⟨400, "Invoice is already closed"⟩
        else .ok inv), db)

/-- Replace the first row with key `i` by `(i, v)`, as mutating the ORM
object returned by `.first()` and committing does. -/
def setInvoice (l : List (InvoiceId × Invoice)) (i : InvoiceId) (v : Invoice) :
    List (InvoiceId × Invoice) :=
  match l with
  | [] => []
  | (k, w) :: rest =>
      if k = i then (k, v) :: rest else (k, w) :: setInvoice rest i v

/-- Endpoint `PUT /api/invoice/invoice_id/confirm-close`
(`confirm_close_invoice`, main.py:318-333): 404 when absent (wrapped to
400 by the handler), error when already closed, otherwise set
`status = True` and commit. -/
def confirm_close_invoice (db : Store) (invoice_id : InvoiceId) :
    Except ApiError Invoice × Store :=
  match dbFirst db.invoices invoice_id with
  | none => (tryWrap (.error ⟨404, "Invoice not found"⟩), db)
  | some inv =>
      if inv.status then
        (tryWrap (.error ⟨400, "Invoice is already closed"⟩), db)
      else
        let inv2 := { inv with status := true }
        (.ok inv2, { db with invoices := setInvoice db.invoices invoice_id inv2 })

/-- Loop body of `get_total_invoices` (main.py:342-345): resolve the id
and add `invoice.total`, or keep the accumulator when the id does not
resolve. -/
def totalStep (db : Store) (total_sum : Amount) (invoice_id : InvoiceId) : Amount :=
  match dbFirst db.invoices invoice_id with
  | none => total_sum
  | some inv => total_sum + inv.total

/-- Endpoint `GET /api/room/room_id/total_invoices` (`get_total_invoices`,
main.py:335-347): sum `total` over the invoice-id list of the room,
adding nothing for an id that does not resolve. -/
def get_total_invoices (db : Store) (room_id : RoomId) : Except ApiError Amount :=
  match dbFirst db.rooms room_id with
  | none => .error ⟨404, "Room not found"⟩
  | some room => .ok (room.invoices.foldl (totalStep db) 0)

/-- Loop body of `get_balance_between_users_in_room` (main.py:380-387):
when the id resolves, add the `user_sums` entry of each of the two
users (when present) to the respective accumulator. -/
def balanceStep (db : Store) (user1_id user2_id : UserId)
    (acc : Amount × Amount) (invoice_id : InvoiceId) : Amount × Amount :=
  match dbFirst db.invoices invoice_id with
  | none => acc
  | some inv =>
      let b1 := match dbFirst inv.user_sums user1_id with
        | some v => acc.1 + v
        | none => acc.1
      let b2 := match dbFirst inv.user_sums user2_id with
        | some v => acc.2 + v
        | none => acc.2
      (b1, b2)

/-- Endpoint `GET /api/room/room_id/balance/user1_id/user2_id`
(`get_balance_between_users_in_room`, main.py:371-390): accumulate the
`user_sums` entries of each user over the resolvable invoices of the
room and return the difference. -/
def get_balance_between_users_in_room (db : Store) (room_id : RoomId)
    (user1_id user2_id : UserId) : Except ApiError Amount :=
  match dbFirst db.rooms room_id with
  | none => .error ⟨404, "Room not found"⟩
  | some room =>
      let balances := room.invoices.foldl (balanceStep db user1_id user2_id) (0, 0)
      .ok (balances.1 - balances.2)

/-- Point update of a two-level debt table:
`debts[u][c] += amt` on a table defaulting to 0. -/
def bump (debts : UserId → UserId → Amount) (u c : UserId) (amt : Amount) :
    UserId → UserId → Amount :=
  fun a b => if a = u ∧ b = c then debts a b + amt else debts a b

/-- Inner loop of the aggregation in `get_balances_in_room`
(main.py:413-418): each `(user_id, amount)` of `user_sums` with
`user_id != creator_id` adds `amount` to `debts[user_id][creator_id]`. -/
def addInvoiceDebts (debts : UserId → UserId → Amount) (inv : Invoice) :
    UserId → UserId → Amount :=
  inv.user_sums.foldl
    (fun d p =>
      if p.1 ≠ inv.creator_id then bump d p.1 inv.creator_id p.2 else d)
    debts

/-- One step of invoice aggregation including the guard
`if not invoice or not invoice.user_sums: continue`: an invoice with an
empty `user_sums` contributes nothing. -/
def aggStep (debts : UserId → UserId → Amount) (inv : Invoice) :
    UserId → UserId → Amount :=
  if inv.user_sums.isEmpty then debts else addInvoiceDebts debts inv

/-- The aggregation of `get_balances_in_room` as a pure function of the
invoice sequence (spec §4.1 `aggregate`): fold `aggStep` from the empty
table. -/
def aggregate (invs : List Invoice) : UserId → UserId → Amount :=
  invs.foldl aggStep (fun _ _ => 0)

/-- Loop body of the gross-debt collection (main.py:404-418): resolve
the id, then aggregate the invoice. -/
def resolveStep (db : Store) (debts : UserId → UserId → Amount)
    (invoice_id : InvoiceId) : UserId → UserId → Amount :=
  match dbFirst db.invoices invoice_id with
  | none => debts
  | some inv => aggStep debts inv

/-- Gross debts of a room (main.py:400-418): resolve each id in
`room.invoices`, skip misses and empty `user_sums`, aggregate the rest. -/
def roomDebts (db : Store) (room : Room) : UserId → UserId → Amount :=
  room.invoices.foldl (resolveStep db) (fun _ _ => 0)

/-- Inner loop of the netting step (main.py:423-431): for a fixed
debtor, scan the participants and record
`net = debts[debtor][creditor] - debts[creditor][debtor]` for each
distinct creditor whose net is strictly positive. -/
def netRow (debts : UserId → UserId → Amount) (parts : List UserId)
    (debtor : UserId) : List (UserId × Amount) :=
  parts.filterMap (fun creditor =>
    if debtor = creditor then none
    else
      let net := debts debtor creditor - debts creditor debtor
      if 0 < net then some (creditor, net) else none)

/-- Endpoint `GET /api/room/room_id/balances` (`get_balances_in_room`,
main.py:394-438): gross aggregation, pairwise netting over the
participant set of the room (deduplicated, as the dict keyed by
`user.id` is), and removal of debtors whose row is empty. -/
def get_balances_in_room (db : Store) (room_id : RoomId) :
    Except ApiError (List (UserId × List (UserId × Amount))) :=
  match dbFirst db.rooms room_id with
  | none => .error ⟨404, "Room not found"⟩
  | some room =>
      let parts := room.participants.dedup
      let debts := roomDebts db room
      let simplified := parts.map (fun debtor => (debtor, netRow debts parts debtor))
      .ok (simplified.filter (fun p => !p.2.isEmpty))

/-- Lookup `ledger[debtor][creditor]` in a returned two-level ledger. -/
def ledgerLookup (ledger : List (UserId × List (UserId × Amount)))
    (debtor creditor : UserId) : Option Amount :=
  match dbFirst ledger debtor with
  | none => none
  | some row => dbFirst row creditor

/-- Request body of `POST /api/invoice/` (`schemas.DataCreate`).  Note
that it has no `room_id` field. -/
structure DataCreate where
  name : String
  description : Option String := none
  date : Option String := none
  total : Amount
  user_sums : List (UserId × Amount)
  creator_id : UserId
deriving DecidableEq

/-- Get-or-create each user id in order (`create_invoice`,
main.py:225-234): a user id already present is kept, a missing one is
inserted with name `"User id"`; each insertion is committed at once. -/
def syncUsers (users : List (UserId × String)) (ids : List UserId) :
    List (UserId × String) :=
  ids.foldl
    (fun us uid =>
      match dbFirst us uid with
      | some _ => us
      | none => us ++ [(uid, "User " ++ toString uid)])
    users

/-- Endpoint `POST /api/invoice/` (`create_invoice`, main.py:219-257):
after the creator check and the user get-or-create loop (whose commits
persist), the body evaluates `invoice.room_id` at main.py:237 — but
`schemas.DataCreate` has no field `room_id`, so the attribute access
raises `AttributeError`, which no handler in this endpoint catches; the
framework turns the unhandled exception into an HTTP 500.  The room is
therefore never fetched, the participant sync at main.py:241-243 never
runs, and no invoice row is created. -/
def create_invoice (db : Store) (invoice : DataCreate) :
    Except ApiError Invoice × Store :=
  match dbFirst db.users invoice.creator_id with
  | none => (.error ⟨404, "Creator not found"⟩, db)
  | some _ =>
      let db1 := { db with users := syncUsers db.users (invoice.user_sums.map Prod.fst) }
      (.error ⟨500, "Internal Server Error"⟩, db1)

/-- Boolean success test for an endpoint result. -/
def isOkResult {α : Type} : Except ApiError α → Bool
  | .ok _ => true
  | .error _ => false

/-- Per-entry share of user `u` in one invoice:
`user_sums[u]` when present, else 0. -/
def shareOf (inv : Invoice) (u : UserId) : Amount :=
  (dbFirst inv.user_sums u).getD 0

/-- Total contribution-share of user `u` over the resolvable invoices
of a room. -/
def shareSum (db : Store) (room : Room) (u : UserId) : Amount :=
  ((room.invoices.filterMap (fun i => dbFirst db.invoices i)).map
    (fun inv => shareOf inv u)).sum

/-- Contribution of one `user_sums` list with creator `creator` to the
debt cell `(a, b)`: the sum of the amounts recorded for debtor `a`
when `b` is the creator, skipping self-debts. -/
def listContrib (l : List (UserId × Amount)) (creator a b : UserId) : Amount :=
  if b = creator then
    ((l.filter (fun p => p.1 = a ∧ p.1 ≠ creator)).map Prod.snd).sum
  else 0

/-- Contribution of one invoice to the debt cell `(a, b)`. -/
def invContrib (inv : Invoice) (a b : UserId) : Amount :=
  listContrib inv.user_sums inv.creator_id a b

/-- Example room of spec §8.5: participants 1, 2, 3 and two invoices. -/
def exRoom : Room := { name := "R", participants := [1, 2, 3], invoices := [1, 2] }

/-- Example invoice I1 of spec §8.5: creator 1, user 2 owes 30 and
user 3 owes 20. -/
def exI1 : Invoice :=
  { name := "I1", total := 50, user_sums := [(2, 30), (3, 20)],
    creator_id := 1, status := false }

/-- Example invoice I2 of spec §8.5: creator 2, user 1 owes 10. -/
def exI2 : Invoice :=
  { name := "I2", total := 10, user_sums := [(1, 10)], creator_id := 2,
    status := false }

/-- Example store of spec §8.5. -/
def exDb : Store :=
  { rooms := [(1, exRoom)],
    invoices := [(1, exI1), (2, exI2)],
    users := [(1, "User 1"), (2, "User 2"), (3, "User 3")] }

/-- A store with no rooms and no invoices. -/
def emptyDb : Store := { rooms := [], invoices := [], users := [] }

/-- A closed invoice, for the closed-state tests. -/
def closedInv : Invoice :=
  { name := "C", total := 5, user_sums := [(2, 5)], creator_id := 1,
    status := true }

/-- A store holding one closed invoice under id 7. -/
def closedDb : Store :=
  { rooms := [], invoices := [(7, closedInv)], users := [(1, "User 1")] }

/-- A room whose invoice list contains the dangling id 99. -/
def dangleRoom : Room :=
  { name := "D", participants := [1, 2, 3], invoices := [1, 99, 2] }

/-- A store whose room 1 references invoices 1, 99, 2, of which 99 does
not resolve. -/
def dangleDb : Store :=
  { rooms := [(1, dangleRoom)],
    invoices := [(1, exI1), (2, exI2)],
    users := [] }

/-- An invoice whose creator 3 is owed by users 1 and 2, used to keep
the pairwise-balance metric and the netted ledger apart. -/
def pairInv : Invoice :=
  { name := "P", total := 12, user_sums := [(1, 5), (2, 7)],
    creator_id := 3, status := false }

/-- A room and store for the pairwise-balance example. -/
def pairRoom : Room := { name := "PR", participants := [1, 2, 3], invoices := [1] }

/-- Store for the pairwise-balance example. -/
def pairDb : Store :=
  { rooms := [(1, pairRoom)], invoices := [(1, pairInv)], users := [] }

theorem wrap404 :
    wrapError ⟨404, "Invoice not found"⟩ = ⟨400, "404: Invoice not found"⟩ := rfl

theorem wrap400closed :
    wrapError ⟨400, "Invoice is already closed"⟩ =
      ⟨400, "400: Invoice is already closed"⟩ := rfl

theorem dbFirst_setInvoice_self :
    ∀ (l : List (InvoiceId × Invoice)) (i : InvoiceId) (v w : Invoice),
      dbFirst l i = some v → dbFirst (setInvoice l i w) i = some w := by
  intro l
  induction l with
  | nil => intro i v w h; simp [dbFirst] at h
  | cons p rest ih =>
      intro i v w h
      obtain ⟨k, u⟩ := p
      by_cases hk : k = i
      · simp [setInvoice, hk, dbFirst]
      · simp only [setInvoice, dbFirst, if_neg hk] at h ⊢
        exact ih i v w h

theorem dbFirst_setInvoice_other :
    ∀ (l : List (InvoiceId × Invoice)) (i j : InvoiceId) (w : Invoice),
      j ≠ i → dbFirst (setInvoice l i w) j = dbFirst l j := by
  intro l
  induction l with
  | nil => intro i j w hj; simp [setInvoice]
  | cons p rest ih =>
      intro i j w hj
      obtain ⟨k, u⟩ := p
      by_cases hk : k = i
      · subst hk
        have hkj : ¬ k = j := fun hkj => hj (hkj ▸ rfl)
        simp [setInvoice, dbFirst, hkj]
      · simp only [setInvoice, if_neg hk, dbFirst]
        by_cases hkj : k = j
        · simp [hkj]
        · simp [hkj, ih i j w hj]

/-- C8: a direct lookup of a missing room yields the 404 NotFound
response, while a direct lookup of a missing invoice raises the same
404 inside the handler body but has it re-wrapped by the blanket
`except Exception` into a status-400 response carrying the stringified
404 error as its detail. -/
theorem direct_lookup_not_found (db : Store) (room_id : RoomId)
    (invoice_id : InvoiceId) (hr : dbFirst db.rooms room_id = none)
    (hi : dbFirst db.invoices invoice_id = none) :
    get_room db room_id = .error ⟨404, "Room not found"⟩ ∧
    get_invoice db invoice_id = .error ⟨400, "404: Invoice not found"⟩ := by
  constructor
  · simp [get_room, hr]
  · simp [get_invoice, hi, tryWrap, wrap404]

/-- Witness for `direct_lookup_not_found`: the empty store with id 1. -/
theorem direct_lookup_not_found_witness :
    get_room emptyDb 1 = .error ⟨404, "Room not found"⟩ ∧
    get_invoice emptyDb 1 = .error ⟨400, "404: Invoice not found"⟩ :=
  direct_lookup_not_found emptyDb 1 1 rfl rfl

/-- C9: `request_close_invoice` never changes the store; it fails on a
missing invoice and on an already-closed invoice (both surfaced with
status 400 by the blanket handler), and returns the stored invoice
unmodified when it exists and is open. -/
theorem request_close_no_mutation (db : Store) (invoice_id : InvoiceId) :
    (request_close_invoice db invoice_id).2 = db ∧
    (dbFirst db.invoices invoice_id = none →
      (request_close_invoice db invoice_id).1 =
        .error ⟨400, "404: Invoice not found"⟩) ∧
    (∀ inv, dbFirst db.invoices invoice_id = some inv → inv.status = true →
      (request_close_invoice db invoice_id).1 =
        .error ⟨400, "400: Invoice is already closed"⟩) ∧
    (∀ inv, dbFirst db.invoices invoice_id = some inv → inv.status = false →
      (request_close_invoice db invoice_id).1 = .ok inv) := by
  refine ⟨rfl, ?_, ?_, ?_⟩
  · intro h
    simp [request_close_invoice, h, tryWrap, wrap404]
  · intro inv h hs
    simp [request_close_invoice, h, hs, tryWrap, wrap400closed]
  · intro inv h hs
    simp [request_close_invoice, h, hs, tryWrap]

/-- Witness for `request_close_no_mutation`: the example store, whose
invoice 1 exists and is open. -/
theorem request_close_no_mutation_witness :
    (request_close_invoice exDb 1).2 = exDb ∧
    (request_close_invoice exDb 1).1 = Except.ok exI1 :=
  ⟨(request_close_no_mutation exDb 1).1,
   (request_close_no_mutation exDb 1).2.2.2 exI1 rfl rfl⟩

/-- C5: `confirm_close_invoice` on an already-closed invoice fails with
the already-closed error and leaves the store untouched; moreover no
call of `confirm_close_invoice` ever turns any stored closed invoice
back into an open one. -/
theorem confirm_close_already_closed (db : Store) (invoice_id : InvoiceId)
    (inv : Invoice) (h : dbFirst db.invoices invoice_id = some inv)
    (hclosed : inv.status = true) :
    (confirm_close_invoice db invoice_id).1 =
      .error ⟨400, "400: Invoice is already closed"⟩ ∧
    (confirm_close_invoice db invoice_id).2 = db ∧
    ∀ (db2 : Store) (id2 id3 : InvoiceId) (inv2 : Invoice),
      dbFirst db2.invoices id2 = some inv2 → inv2.status = true →
      ∃ inv3, dbFirst (confirm_close_invoice db2 id3).2.invoices id2 = some inv3 ∧
        inv3.status = true := by
  refine ⟨?_, ?_, ?_⟩
  · simp [confirm_close_invoice, h, hclosed, tryWrap, wrap400closed]
  · simp [confirm_close_invoice, h, hclosed]
  · intro db2 id2 id3 inv2 h2 hs2
    cases h3 : dbFirst db2.invoices id3 with
    | none => exact ⟨inv2, by simp [confirm_close_invoice, h3, h2], hs2⟩
    | some invT =>
        by_cases hT : invT.status
        · exact ⟨inv2, by simp [confirm_close_invoice, h3, hT, h2], hs2⟩
        · by_cases hid : id2 = id3
          · subst hid
            rw [h2] at h3
            injection h3 with he
            exact absurd (he ▸ hs2) hT
          · refine ⟨inv2, ?_, hs2⟩
            simp only [confirm_close_invoice, h3, hT, Bool.false_eq_true,
              if_false]
            rw [dbFirst_setInvoice_other db2.invoices id3 id2 _ hid]
            exact h2

/-- Witness for `confirm_close_already_closed`: a store holding the
closed invoice 7. -/
theorem confirm_close_already_closed_witness :
    (confirm_close_invoice closedDb 7).1 =
      Except.error ⟨400, "400: Invoice is already closed"⟩ ∧
    (confirm_close_invoice closedDb 7).2 = closedDb :=
  ⟨(confirm_close_already_closed closedDb 7 closedInv rfl rfl).1,
   (confirm_close_already_closed closedDb 7 closedInv rfl rfl).2.1⟩

/-- C10: `confirm_close_invoice` on an existing open invoice returns it
with `status` set and every other field unchanged, stores exactly that
update under the same id, and leaves rooms, users and every other
invoice row as they were. -/
theorem confirm_close_open_frame (db : Store) (invoice_id : InvoiceId)
    (inv : Invoice) (h : dbFirst db.invoices invoice_id = some inv)
    (hopen : inv.status = false) :
    ∃ inv2,
      (confirm_close_invoice db invoice_id).1 = .ok inv2 ∧
      inv2.status = true ∧ inv2.name = inv.name ∧
      inv2.description = inv.description ∧ inv2.date = inv.date ∧
      inv2.total = inv.total ∧ inv2.user_sums = inv.user_sums ∧
      inv2.creator_id = inv.creator_id ∧
      (confirm_close_invoice db invoice_id).2.rooms = db.rooms ∧
      (confirm_close_invoice db invoice_id).2.users = db.users ∧
      dbFirst (confirm_close_invoice db invoice_id).2.invoices invoice_id =
        some inv2 ∧
      ∀ j, j ≠ invoice_id →
        dbFirst (confirm_close_invoice db invoice_id).2.invoices j =
          dbFirst db.invoices j := by
  refine ⟨{ inv with status := true }, ?_, rfl, rfl, rfl, rfl, rfl, rfl, rfl,
    ?_, ?_, ?_, ?_⟩
  · simp [confirm_close_invoice, h, hopen]
  · simp [confirm_close_invoice, h, hopen]
  · simp [confirm_close_invoice, h, hopen]
  · simp only [confirm_close_invoice, h, hopen, Bool.false_eq_true, if_false]
    exact dbFirst_setInvoice_self db.invoices invoice_id inv _ h
  · intro j hj
    simp only [confirm_close_invoice, h, hopen, Bool.false_eq_true, if_false]
    exact dbFirst_setInvoice_other db.invoices invoice_id j _ hj

/-- Witness for `confirm_close_open_frame`: the example store, whose
invoice 1 exists and is open. -/
theorem confirm_close_open_frame_witness :
    ∃ inv2, (confirm_close_invoice exDb 1).1 = Except.ok inv2 ∧
      inv2.status = true :=
  (confirm_close_open_frame exDb 1 exI1 rfl rfl).elim
    (fun inv2 hh => ⟨inv2, hh.1, hh.2.1⟩)

/-- C4: `create_invoice` never succeeds — the handler reads
`invoice.room_id`, a field `schemas.DataCreate` does not have, so every
call errors out after the user get-or-create loop; in particular no
room (so no participant list) and no invoice row is ever touched, and
the claimed participant sync never happens. -/
theorem create_invoice_never_succeeds (db : Store) (invoice : DataCreate) :
    isOkResult (create_invoice db invoice).1 = false ∧
    (create_invoice db invoice).2.rooms = db.rooms ∧
    (create_invoice db invoice).2.invoices = db.invoices := by
  cases h : dbFirst db.users invoice.creator_id <;>
    simp [create_invoice, h, isOkResult]

theorem foldl_totalStep (db : Store) :
    ∀ (l : List InvoiceId) (acc : Amount),
      l.foldl (totalStep db) acc =
        acc + ((l.filterMap (fun i => dbFirst db.invoices i)).map
          Invoice.total).sum := by
  intro l
  induction l with
  | nil => intro acc; simp
  | cons i rest ih =>
      intro acc
      cases h : dbFirst db.invoices i with
      | none => simp [List.foldl_cons, totalStep, h, ih]
      | some inv => simp [List.foldl_cons, totalStep, h, ih, add_assoc]

/-- C6: when the room resolves, `get_total_invoices` returns the sum of
`total` over exactly the resolvable invoice ids of the room; dangling
ids contribute nothing and cause no error. -/
theorem total_invoices_skips_dangling (db : Store) (room_id : RoomId)
    (room : Room) (h : dbFirst db.rooms room_id = some room) :
    get_total_invoices db room_id =
      .ok (((room.invoices.filterMap (fun i => dbFirst db.invoices i)).map
        Invoice.total).sum) := by
  simp [get_total_invoices, h, foldl_totalStep]

/-- Witness for `total_invoices_skips_dangling`: room 1 of `dangleDb`
lists invoice ids 1, 99, 2 where 99 does not resolve; the total is the
sum 50 + 10 over the two resolvable invoices. -/
theorem total_invoices_skips_dangling_witness :
    get_total_invoices dangleDb 1 = .ok 60 := by
  have h := total_invoices_skips_dangling dangleDb 1 dangleRoom rfl
  rw [h]
  norm_num [dangleRoom, dangleDb, dbFirst, exI1, exI2, List.filterMap_cons,
    List.filterMap_nil]

theorem foldl_balanceStep (db : Store) (u1 u2 : UserId) :
    ∀ (l : List InvoiceId) (acc : Amount × Amount),
      l.foldl (balanceStep db u1 u2) acc =
        (acc.1 + ((l.filterMap (fun i => dbFirst db.invoices i)).map
          (fun inv => shareOf inv u1)).sum,
         acc.2 + ((l.filterMap (fun i => dbFirst db.invoices i)).map
          (fun inv => shareOf inv u2)).sum) := by
  intro l
  induction l with
  | nil => intro acc; simp
  | cons i rest ih =>
      intro acc
      cases h : dbFirst db.invoices i with
      | none => simp [List.foldl_cons, balanceStep, h, ih]
      | some inv =>
          cases h1 : dbFirst inv.user_sums u1 <;>
            cases h2 : dbFirst inv.user_sums u2 <;>
              simp [List.foldl_cons, balanceStep, h, h1, h2, ih, shareOf,
                add_assoc]

/-- C7: `get_balance_between_users_in_room` returns the difference of
the two contribution-share sums over the resolvable invoices of the
room; and it is a different quantity from the netted ledger — in
`pairDb` the pairwise balance of users 1 and 2 is -2 while the
simplified ledger holds no entry between 1 and 2 in either direction. -/
theorem pairwise_balance_is_share_difference :
    (∀ (db : Store) (room_id : RoomId) (u1 u2 : UserId) (room : Room),
      dbFirst db.rooms room_id = some room →
      get_balance_between_users_in_room db room_id u1 u2 =
        .ok (shareSum db room u1 - shareSum db room u2)) ∧
    get_balance_between_users_in_room pairDb 1 1 2 = .ok (-2) ∧
    ∃ L, get_balances_in_room pairDb 1 = Except.ok L ∧
      ledgerLookup L 1 2 = none ∧ ledgerLookup L 2 1 = none := by
  have main : ∀ (db : Store) (room_id : RoomId) (u1 u2 : UserId) (room : Room),
      dbFirst db.rooms room_id = some room →
      get_balance_between_users_in_room db room_id u1 u2 =
        .ok (shareSum db room u1 - shareSum db room u2) := by
    intro db room_id u1 u2 room h
    simp [get_balance_between_users_in_room, h, foldl_balanceStep, shareSum]
  refine ⟨main, ?_, ?_⟩
  · rw [main pairDb 1 1 2 pairRoom rfl]
    norm_num [shareSum, pairRoom, pairDb, pairInv, dbFirst, shareOf,
      List.filterMap_cons, List.filterMap_nil]
  · have hded : pairRoom.participants.dedup = [1, 2, 3] := by decide
    refine ⟨[(1, [(3, 5)]), (2, [(3, 7)])], ?_, rfl, rfl⟩
    norm_num [get_balances_in_room, pairDb, pairRoom, hded, netRow, roomDebts,
      resolveStep, aggStep, addInvoiceDebts, bump, pairInv, dbFirst,
      List.filterMap_cons, List.filterMap_nil, List.filter_cons,
      List.filter_nil]

/-- Witness for `pairwise_balance_is_share_difference`: its first
conjunct applied to the example store and users 2 and 1. -/
theorem pairwise_balance_is_share_difference_witness :
    get_balance_between_users_in_room exDb 1 2 1 =
      .ok (shareSum exDb exRoom 2 - shareSum exDb exRoom 1) :=
  pairwise_balance_is_share_difference.1 exDb 1 2 1 exRoom rfl

theorem foldl_bump_apply (creator : UserId) :
    ∀ (l : List (UserId × Amount)) (d : UserId → UserId → Amount) (a b : UserId),
      (l.foldl (fun d p => if p.1 ≠ creator then bump d p.1 creator p.2 else d) d) a b
        = d a b + listContrib l creator a b := by
  intro l
  induction l with
  | nil => intro d a b; simp [listContrib]
  | cons p rest ih =>
      intro d a b
      rw [List.foldl_cons, ih]
      by_cases hpc : p.1 = creator
      · rw [if_neg (not_not.mpr hpc)]
        simp [listContrib, List.filter_cons, hpc]
      · rw [if_pos hpc]
        simp only [bump]
        by_cases hb : b = creator
        · subst hb
          by_cases ha : a = p.1
          · rw [if_pos ⟨ha, rfl⟩]
            subst ha
            simp [listContrib, List.filter_cons, hpc, add_assoc]
          · rw [if_neg (fun hand => ha hand.1)]
            have ha2 : ¬ (p.1 = a) := fun e => ha e.symm
            simp [listContrib, List.filter_cons, ha2]
        · rw [if_neg (fun hand => hb hand.2)]
          simp [listContrib, hb]

theorem aggStep_apply (debts : UserId → UserId → Amount) (inv : Invoice)
    (a b : UserId) :
    aggStep debts inv a b = debts a b + invContrib inv a b := by
  by_cases he : inv.user_sums.isEmpty
  · have hnil : inv.user_sums = [] := by
      cases hs : inv.user_sums with
      | nil => rfl
      | cons q qs => rw [hs] at he; simp at he
    simp [aggStep, he, invContrib, hnil, listContrib]
  · simp only [aggStep, he, Bool.false_eq_true, if_false, addInvoiceDebts,
      invContrib]
    exact foldl_bump_apply inv.creator_id inv.user_sums debts a b

theorem foldl_aggStep_apply :
    ∀ (invs : List Invoice) (init : UserId → UserId → Amount) (a b : UserId),
      (invs.foldl aggStep init) a b =
        init a b + (invs.map (fun inv => invContrib inv a b)).sum := by
  intro invs
  induction invs with
  | nil => intro init a b; simp
  | cons inv rest ih =>
      intro init a b
      rw [List.foldl_cons, ih, aggStep_apply]
      simp [add_assoc]

/-- C3: the gross-debt aggregation is invariant under permutation of
the invoice list. -/
theorem aggregate_perm_invariant (l1 l2 : List Invoice) (h : l1.Perm l2) :
    aggregate l1 = aggregate l2 := by
  funext a b
  simp only [aggregate]
  rw [foldl_aggStep_apply, foldl_aggStep_apply]
  exact congrArg _ ((h.map (fun inv => invContrib inv a b)).sum_eq)

/-- Witness for `aggregate_perm_invariant`: swapping the two example
invoices. -/
theorem aggregate_perm_invariant_witness :
    aggregate [exI1, exI2] = aggregate [exI2, exI1] :=
  aggregate_perm_invariant _ _ (List.Perm.swap exI2 exI1 [])

/-- The gross-debt table of `get_balances_in_room` is exactly the pure
aggregation applied to the resolvable invoices of the room (ties the
endpoint loop at main.py:404-418 to `aggregate`). -/
theorem roomDebts_eq_aggregate (db : Store) (room : Room) :
    roomDebts db room =
      aggregate (room.invoices.filterMap (fun i => dbFirst db.invoices i)) := by
  simp only [roomDebts, aggregate]
  suffices hgen : ∀ (l : List InvoiceId) (init : UserId → UserId → Amount),
      l.foldl (resolveStep db) init =
        (l.filterMap (fun i => dbFirst db.invoices i)).foldl aggStep init by
    exact hgen room.invoices _
  intro l
  induction l with
  | nil => intro init; simp
  | cons i rest ih =>
      intro init
      cases h : dbFirst db.invoices i with
      | none =>
          simp [List.foldl_cons, resolveStep, h, List.filterMap_cons, ih]
      | some inv =>
          simp [List.foldl_cons, resolveStep, h, List.filterMap_cons, ih]

theorem dbFirst_filterMap_not_mem {β : Type} (g : Nat → Option (Nat × β))
    (hg : ∀ a q, g a = some q → q.1 = a) :
    ∀ (l : List Nat) (x : Nat), x ∉ l → dbFirst (l.filterMap g) x = none := by
  intro l
  induction l with
  | nil => intro x hx; simp [dbFirst]
  | cons a rest ih =>
      intro x hx
      have hxa : ¬ (x = a) := fun e => hx (by rw [e]; exact List.mem_cons_self a rest)
      have hxr : x ∉ rest := fun m => hx (List.mem_cons_of_mem a m)
      cases hga : g a with
      | none =>
          simp only [List.filterMap_cons, hga]
          exact ih x hxr
      | some q =>
          obtain ⟨k, v⟩ := q
          have hk : k = a := hg a (k, v) hga
          have hkx : ¬ (k = x) := by rw [hk]; exact fun e => hxa e.symm
          simp only [List.filterMap_cons, hga, dbFirst, if_neg hkx]
          exact ih x hxr

theorem dbFirst_filterMap_mem {β : Type} (g : Nat → Option (Nat × β))
    (hg : ∀ a q, g a = some q → q.1 = a) :
    ∀ (l : List Nat), l.Nodup → ∀ x ∈ l,
      dbFirst (l.filterMap g) x = Option.map Prod.snd (g x) := by
  intro l
  induction l with
  | nil => intro _ x hx; simp at hx
  | cons a rest ih =>
      intro hnd x hx
      have hna : a ∉ rest := (List.nodup_cons.mp hnd).1
      have hnd2 : rest.Nodup := (List.nodup_cons.mp hnd).2
      rcases List.mem_cons.mp hx with he | hm
      · subst he
        cases hga : g x with
        | none =>
            simp only [List.filterMap_cons, hga, Option.map_none']
            exact dbFirst_filterMap_not_mem g hg rest x hna
        | some q =>
            obtain ⟨k, v⟩ := q
            have hk : k = x := hg x (k, v) hga
            simp [List.filterMap_cons, hga, dbFirst, hk]
      · have hxa : ¬ (x = a) := fun e => hna (by rw [← e]; exact hm)
        cases hga : g a with
        | none =>
            simp only [List.filterMap_cons, hga]
            exact ih hnd2 x hm
        | some q =>
            obtain ⟨k, v⟩ := q
            have hk : k = a := hg a (k, v) hga
            have hkx : ¬ (k = x) := by rw [hk]; exact fun e => hxa e.symm
            simp only [List.filterMap_cons, hga, dbFirst, if_neg hkx]
            exact ih hnd2 x hm

theorem dbFirst_rowMap_not_mem {β : Type} (f : Nat → List β) :
    ∀ (l : List Nat) (x : Nat), x ∉ l →
      dbFirst ((l.map (fun a => (a, f a))).filter (fun p => !p.2.isEmpty)) x =
        none := by
  intro l
  induction l with
  | nil => intro x hx; simp [dbFirst]
  | cons a rest ih =>
      intro x hx
      have hxa : ¬ (a = x) :=
        fun e => hx (by rw [← e]; exact List.mem_cons_self a rest)
      have hxr : x ∉ rest := fun m => hx (List.mem_cons_of_mem a m)
      by_cases hq : (f a).isEmpty
      · simp only [List.map_cons, List.filter_cons, hq, Bool.not_true,
          Bool.false_eq_true, if_false]
        exact ih x hxr
      · simp only [List.map_cons, List.filter_cons, Bool.not_eq_true',
          if_pos, dbFirst]
        rw [if_pos (by simp [hq]), dbFirst, if_neg hxa]
        exact ih x hxr

theorem dbFirst_rowMap_mem {β : Type} (f : Nat → List β) :
    ∀ (l : List Nat), l.Nodup → ∀ x ∈ l,
      dbFirst ((l.map (fun a => (a, f a))).filter (fun p => !p.2.isEmpty)) x =
        if (f x).isEmpty then none else some (f x) := by
  intro l
  induction l with
  | nil => intro _ x hx; simp at hx
  | cons a rest ih =>
      intro hnd x hx
      have hna : a ∉ rest := (List.nodup_cons.mp hnd).1
      have hnd2 : rest.Nodup := (List.nodup_cons.mp hnd).2
      rcases List.mem_cons.mp hx with he | hm
      · subst he
        by_cases hq : (f x).isEmpty
        · rw [if_pos hq]
          simp only [List.map_cons, List.filter_cons, hq, Bool.not_true,
            Bool.false_eq_true, if_false]
          exact dbFirst_rowMap_not_mem f rest x hna
        · rw [if_neg hq]
          simp only [List.map_cons, List.filter_cons]
          rw [if_pos (by simp [hq]), dbFirst, if_pos rfl]
      · have hxa : ¬ (a = x) := fun e => hna (by rw [e]; exact hm)
        by_cases hq : (f a).isEmpty
        · simp only [List.map_cons, List.filter_cons, hq, Bool.not_true,
            Bool.false_eq_true, if_false]
          exact ih hnd2 x hm
        · simp only [List.map_cons, List.filter_cons]
          rw [if_pos (by simp [hq]), dbFirst, if_neg hxa]
          exact ih hnd2 x hm

/-- C1: in the ledger returned by `get_balances_in_room`, for distinct
participants the entry `debtor → creditor` equals the positive part of
`gross[debtor][creditor] - gross[creditor][debtor]` — present exactly
when that net is strictly positive, never present together with its
reverse, and no debtor key carries an empty inner map. -/
theorem balances_entry_iff (db : Store) (room_id : RoomId) (room : Room)
    (h : dbFirst db.rooms room_id = some room) (debtor creditor : UserId)
    (hd : debtor ∈ room.participants) (hc : creditor ∈ room.participants)
    (hne : debtor ≠ creditor) :
    ∃ L, get_balances_in_room db room_id = Except.ok L ∧
      ledgerLookup L debtor creditor =
        (if 0 < roomDebts db room debtor creditor -
              roomDebts db room creditor debtor
         then some (roomDebts db room debtor creditor -
              roomDebts db room creditor debtor)
         else none) ∧
      (ledgerLookup L debtor creditor ≠ none →
        ledgerLookup L creditor debtor = none) ∧
      ∀ p ∈ L, p.2 ≠ [] := by
  have hnd : room.participants.dedup.Nodup := List.nodup_dedup _
  have hd2 : debtor ∈ room.participants.dedup := List.mem_dedup.mpr hd
  have hc2 : creditor ∈ room.participants.dedup := List.mem_dedup.mpr hc
  have hkey : ∀ x y : UserId, x ∈ room.participants.dedup →
      y ∈ room.participants.dedup → x ≠ y →
      ledgerLookup ((room.participants.dedup.map
          (fun d => (d, netRow (roomDebts db room) room.participants.dedup d))).filter
          (fun p => !p.2.isEmpty)) x y =
        (if 0 < roomDebts db room x y - roomDebts db room y x
         then some (roomDebts db room x y - roomDebts db room y x)
         else none) := by
    intro x y hx hy hxy
    have hg : ∀ (a : Nat) (q : Nat × Amount),
        (fun creditor =>
          if x = creditor then none
          else
            let net := roomDebts db room x creditor - roomDebts db room creditor x
            if 0 < net then some (creditor, net) else none) a = some q →
        q.1 = a := by
      intro a q hq
      by_cases hxa : x = a
      · simp [hxa] at hq
      · simp only [hxa, if_false] at hq
        by_cases hpos : 0 < roomDebts db room x a - roomDebts db room a x
        · simp only [hpos, if_pos] at hq
          cases hq
          rfl
        · simp [hpos] at hq
    simp only [ledgerLookup]
    rw [dbFirst_rowMap_mem
      (fun d => netRow (roomDebts db room) room.participants.dedup d)
      room.participants.dedup hnd x hx]
    by_cases hrow : (netRow (roomDebts db room) room.participants.dedup x).isEmpty
    · rw [if_pos hrow]
      by_cases hpos : 0 < roomDebts db room x y - roomDebts db room y x
      · exfalso
        have hmem : (y, roomDebts db room x y - roomDebts db room y x) ∈
            netRow (roomDebts db room) room.participants.dedup x := by
          unfold netRow
          exact List.mem_filterMap.mpr ⟨y, hy, by simp [hxy, hpos]⟩
        rw [List.isEmpty_iff.mp hrow] at hmem
        simp at hmem
      · simp [hpos]
    · rw [if_neg hrow]
      show dbFirst (netRow (roomDebts db room) room.participants.dedup x) y = _
      unfold netRow
      rw [dbFirst_filterMap_mem _ hg room.participants.dedup hnd y hy]
      by_cases hpos : 0 < roomDebts db room x y - roomDebts db room y x
      · simp [hxy, hpos]
      · simp [hxy, hpos]
  refine ⟨(room.participants.dedup.map
      (fun d => (d, netRow (roomDebts db room) room.participants.dedup d))).filter
      (fun p => !p.2.isEmpty), ?_, ?_, ?_, ?_⟩
  · simp only [get_balances_in_room, h]
  · exact hkey debtor creditor hd2 hc2 hne
  · intro hne2
    by_cases hpos : 0 < roomDebts db room debtor creditor -
        roomDebts db room creditor debtor
    · rw [hkey creditor debtor hc2 hd2 (Ne.symm hne)]
      rw [if_neg (by linarith)]
    · rw [hkey debtor creditor hd2 hc2 hne, if_neg hpos] at hne2
      exact absurd rfl hne2
  · intro p hp
    have hmem := List.mem_filter.mp hp
    simpa using hmem.2

/-- Witness for `balances_entry_iff`: the example store, room 1,
debtor 2 and creditor 1. -/
theorem balances_entry_iff_witness :
    ∃ L, get_balances_in_room exDb 1 = Except.ok L ∧
      ledgerLookup L 2 1 =
        (if 0 < roomDebts exDb exRoom 2 1 - roomDebts exDb exRoom 1 2
         then some (roomDebts exDb exRoom 2 1 - roomDebts exDb exRoom 1 2)
         else none) ∧
      (ledgerLookup L 2 1 ≠ none → ledgerLookup L 1 2 = none) ∧
      ∀ p ∈ L, p.2 ≠ [] :=
  balances_entry_iff exDb 1 exRoom rfl 2 1 (by decide) (by decide) (by decide)

/-- C2: on the spec §8.5 example — participants 1, 2, 3; invoice I1
with creator 1 and sums 2 ↦ 30, 3 ↦ 20; invoice I2 with creator 2 and
sum 1 ↦ 10 — the gross debts are 2→1: 30, 3→1: 20, 1→2: 10 and the
simplified ledger is exactly 2 ↦ (1 ↦ 20), 3 ↦ (1 ↦ 20). -/
theorem example_room_ledger :
    roomDebts exDb exRoom 2 1 = 30 ∧ roomDebts exDb exRoom 3 1 = 20 ∧
    roomDebts exDb exRoom 1 2 = 10 ∧
    get_balances_in_room exDb 1 = .ok [(2, [(1, 20)]), (3, [(1, 20)])] := by
  have hded : exRoom.participants.dedup = [1, 2, 3] := by decide
  refine ⟨?_, ?_, ?_, ?_⟩ <;>
    norm_num [get_balances_in_room, exDb, exRoom, hded, netRow, roomDebts,
      resolveStep, aggStep, addInvoiceDebts, bump, exI1, exI2, dbFirst,
      List.filterMap_cons, List.filterMap_nil, List.filter_cons,
      List.filter_nil]

end SplitBackend
